import Mathlib

/-!
A shallow embedding of the `tapfreighter` Chain Porter
(`src/tapfreighter/chain_porter.go`) of the taproot-assets repository.

The porter drives a send package through a linear state machine
(`stateStep`), persisting a checkpoint before broadcast and delivering
proofs after confirmation.  External collaborators (asset wallet, Bitcoin
wallet, chain bridge, proof archive, courier) are modelled by an
environment record `Env` holding the outcome of each call; the side
effects the porter performs (unlocking UTXOs, publishing, importing
proofs, contacting couriers, confirming the parcel) are recorded in an
explicit `Act` trace.  Pure byte-level collaborators (proof
encoding/decoding, suffix enrichment) are modelled structurally.
-/

/-- A compressed public key, abstracted to a numeric identifier. -/
abbrev PubKey := Nat

/-- A Bitcoin outpoint (txid, output index). -/
structure OutPoint where
  txid : Nat
  index : Nat
deriving DecidableEq, Repr

/-- `asset.PrevID`: previous outpoint, asset id and the pre-transfer
script key of an input. -/
structure PrevID where
  outPoint : OutPoint
  assetId : Nat
  scriptKey : PubKey
deriving DecidableEq, Repr

/-- Modelled from the spec: the `SendState` enum of the tapfreighter
package (its Go declaration is not under `src/`); the ordering is the
linear pipeline of spec section 3. -/
inductive SendState where
  | VirtualCommitmentSelect
  | VirtualSign
  | AnchorSign
  | StorePreBroadcast
  | Broadcast
  | WaitTxConf
  | StoreProofs
  | TransferProofs
  | Complete
deriving DecidableEq, Repr

/-- Numeric rank of a `SendState`, following the declaration order. -/
def SendState.toNat : SendState → Nat
  | .VirtualCommitmentSelect => 0
  | .VirtualSign => 1
  | .AnchorSign => 2
  | .StorePreBroadcast => 3
  | .Broadcast => 4
  | .WaitTxConf => 5
  | .StoreProofs => 6
  | .TransferProofs => 7
  | .Complete => 8

instance : LT SendState := ⟨fun a b => a.toNat < b.toNat⟩

instance : LE SendState := ⟨fun a b => a.toNat ≤ b.toNat⟩

instance (a b : SendState) : Decidable (a < b) :=
  inferInstanceAs (Decidable (a.toNat < b.toNat))

instance (a b : SendState) : Decidable (a ≤ b) :=
  inferInstanceAs (Decidable (a.toNat ≤ b.toNat))

/-- The confirmation data of the anchor transaction
(`chainntnfs.TxConfirmation`): block hash, height, tx index. -/
structure ConfData where
  blockHash : Nat
  blockHeight : Nat
  txIndex : Nat
deriving DecidableEq, Repr

/-- A single transition proof (`proof.Proof`).  Only the parts the chain
porter reads are modelled: the witnesses' previous IDs, the outpoint the
proof commits to, the confirmation data added by `UpdateTransitionProof`,
and the `AdditionalInputs` proof files attached on a merge.  An
additional-input file is a list of proofs (`proof.File`). -/
inductive PTree where
  | mk (witnessPrevIds : List (Option PrevID)) (outPointVal : OutPoint)
      (conf : Option ConfData) (additionalInputs : List (List PTree)) : PTree

/-- A proof file (`proof.File`): the ordered chain of transition proofs. -/
abbrev PFile := List PTree

def PTree.witnessPrevIds : PTree → List (Option PrevID)
  | .mk w _ _ _ => w

def PTree.outPoint : PTree → OutPoint
  | .mk _ o _ _ => o

def PTree.conf : PTree → Option ConfData
  | .mk _ _ c _ => c

def PTree.additionalInputs : PTree → List PFile
  | .mk _ _ _ a => a

/-- Modelled from the spec: `proof.Proof.UpdateTransitionProof` enriches
the pending suffix with the confirmation data (spec section 4.3 step 1).
The proof package is an external collaborator. -/
def updateTransitionProof : PTree → ConfData → PTree
  | .mk w o _ a, c => .mk w o (some c) a

/-- Appending proof files to a suffix's `AdditionalInputs` list. -/
def withAdditional : PTree → List PFile → PTree
  | .mk w o c a, fs => .mk w o c (a ++ fs)

/-- Modelled from the spec: `proof.File.AppendProof` appends the suffix
to the trunk file (spec section 4.3 step 4). -/
def appendProof (f : PFile) (s : PTree) : PFile := f ++ [s]

/-- A serialized proof blob (`proof.Blob`).  The codec is modelled
structurally: a blob either encodes a proof file, encodes a single
transition proof, or fails to decode. -/
inductive Blob where
  | fileBlob (f : PFile)
  | suffixBlob (s : PTree)
  | corrupt

/-- Modelled from the spec: `proof.File.Encode`. -/
def encodeFile (f : PFile) : Blob := .fileBlob f

/-- Modelled from the spec: `proof.File.Decode`; fails on anything that
is not an encoded file. -/
def decodeFile : Blob → Option PFile
  | .fileBlob f => some f
  | _ => none

/-- Modelled from the spec: `proof.Proof.Decode` for a proof suffix. -/
def decodeSuffix : Blob → Option PTree
  | .suffixBlob s => some s
  | _ => none

/-- `proof.Locator`: (asset id, script key, outpoint). -/
structure Locator where
  assetId : Nat
  scriptKey : PubKey
  outPoint : OutPoint
deriving Repr

/-- `proof.AnnotatedProof`: a proof blob together with its locator. -/
structure AnnotatedProof where
  locator : Locator
  blob : Blob

/-- An output of a virtual packet (`tappsbt.VOutput`), with the fields
the porter reads for passive assets. -/
structure VOutput where
  proofSuffix : PTree
  assetId : Nat
  assetScriptKey : PubKey
  scriptKeyPub : PubKey

/-- A virtual packet (`tappsbt.VPacket`); inputs are collapsed to their
`PrevID`s, which is all the porter reads. -/
structure VPacket where
  inputs : List PrevID
  outputs : List VOutput

/-- An output of the persisted `OutboundParcel` (`TransferOutput`). -/
structure TransferOutput where
  scriptKey : PubKey
  scriptKeyTweaked : Bool
  scriptKeyLocal : Bool
  amount : Nat
  anchorOutPoint : OutPoint
  proofSuffix : Blob
  proofCourierAddr : List Nat
  witnessData : List Nat

/-- Modelled from the spec: the persisted `OutboundParcel` projection
(spec section 3); its Go declaration is not under `src/`. -/
structure OutboundParcel where
  anchorTxId : Nat
  anchorTxHeightHint : Nat
  inputs : List PrevID
  outputs : List TransferOutput
  passiveAssets : List VPacket

/-- The funded anchor transaction (`tapsend.AnchorTransaction`), reduced
to the wallet UTXOs its funded PSBT locked. -/
structure AnchorTx where
  lockedUTXOs : List OutPoint

/-- Modelled from the spec: the `Parcel` variants (spec section 3); the
parcel Go file is not under `src/`. -/
inductive Parcel where
  | address (destAddrs : List Nat) (transferFeeRate : Option Nat)
  | preSigned
  | pending (outbound : OutboundParcel)

/-- Modelled from the spec: the `sendPackage` threaded through the
pipeline (spec section 3); its Go declaration is not under `src/`.  The
fields are exactly those `chain_porter.go` reads and writes. -/
structure sendPackage where
  sendState : SendState
  parcel : Parcel
  virtualPackets : List VPacket
  inputCommitments : List (PrevID × Nat)
  passiveAssets : List VPacket
  anchorTx : Option AnchorTx
  outboundPkg : Option OutboundParcel
  transferTxConfEvent : Option ConfData
  finalProofs : Option (List (PubKey × AnnotatedProof))

/-- Error kinds of the porter, one per distinct error return of
`chain_porter.go`. -/
inductive PErr where
  | wrongParcelVariant
  | fundAddressSendFailed
  | vPacketVersionInvalid
  | signVirtualPacketFailed
  | feeEstimationFailed
  | createPassiveAssetsFailed
  | signPassiveAssetsFailed
  | anchorVTxFailed
  | validateFailed
  | currentHeightFailed
  | convertToTransferFailed
  | logPendingParcelFailed
  | importLocalAddressesFailed
  | doubleSpend
  | publishFailed
  | registerConfFailed
  | notifierFailed
  | emptyConfEvent
  | decodeSuffixFailed
  | fetchProofFailed
  | decodeProofFailed
  | verifyProofFailed
  | importProofsFailed
  | watchProofsFailed
  | noProofFound
  | parseCourierAddrFailed
  | newCourierFailed
  | deliverProofFailed
  | fetchPassiveProofFailed
  | confirmDeliveryFailed
  | unknownState
deriving DecidableEq, Repr

/-- Result of `ImportTaprootOutput`. -/
inductive ImportRes where
  | imported
  | alreadyExists
  | importErr
deriving DecidableEq, Repr

/-- Result of `PublishTransaction`. -/
inductive PublishRes where
  | published
  | doubleSpendErr
  | otherErr
deriving DecidableEq, Repr

/-- Which branch of the confirmation-wait select fires. -/
inductive WaitOutcome where
  | confirmed (c : ConfData)
  | notifierErr
  | ctxDone
  | quitSignal
deriving DecidableEq, Repr

/-- Result of `Courier.DeliverProof`. -/
inductive DeliverRes where
  | delivered
  | backoff
  | failed
deriving DecidableEq, Repr

/-- The funding result of `FundAddressSend`. -/
structure FundSendRes where
  vPacket : VPacket
  inputCommitments : List (PrevID × Nat)

/-- The environment: the outcome of every external collaborator call the
porter makes during one step (`none` / `*Err` marks a failing call). -/
structure Env where
  quit : Bool
  fundAddressSend : Option FundSendRes
  validateVPacketVersionsOk : Bool
  signVirtualPacketOk : VPacket → Bool
  estimateFee : Option Nat
  createPassiveAssets : Option (List VPacket)
  signPassiveAssetsOk : Bool
  anchorVirtualTransactions : Option AnchorTx
  validateReadyOk : Bool
  currentHeight : Option Nat
  convertToTransfer : Option OutboundParcel
  logPendingParcelOk : Bool
  anchorOutputKey : Nat → Option PubKey
  importTaprootOutput : PubKey → ImportRes
  publish : PublishRes
  registerConfOk : Bool
  waitConf : WaitOutcome
  fetchProof : Locator → Option Blob
  importProofsOk : Bool
  watchProofsOk : Bool
  verifyProofOk : Bool
  isUnSpendable : PubKey → Bool
  isBurnKey : PubKey → Nat → Bool
  parseCourierAddr : List Nat → Option (List Nat)
  newCourierOk : PubKey → Bool
  deliverProof : PubKey → DeliverRes
  confirmParcelDeliveryOk : Bool

/-- An observable side effect of the porter. -/
inductive Act where
  | unlockInput (op : OutPoint)
  | logPendingParcel
  | publishTx
  | broadcastResp
  | importProofs (ps : List AnnotatedProof)
  | watchProofs
  | courierNew (addr : List Nat) (key : PubKey)
  | courierDeliver (key : PubKey)
  | confirmParcelDelivery
  | emitEvent (s : SendState)

/-- Result of one `stateStep`.  On error the Go code returns `nil` for
the package; the model additionally records the in-progress package at
the error point (`atError`) so that specifications can talk about the
UTXOs that were locked when the error occurred.  `crash` marks a nil
dereference or out-of-bounds index panic. -/
inductive Res where
  | ok (pkg : sendPackage)
  | err (e : PErr) (atError : sendPackage)
  | crash

/-- A step result: the trace of side effects, plus the outcome. -/
structure StepRes where
  trace : List Act
  result : Res

/-- Generic result of a porter subroutine. -/
inductive Outcome (α : Type) where
  | ok (val : α)
  | err (e : PErr)
  | crash

/-- The wallet UTXOs currently locked by the package's funded anchor
transaction (empty when no anchor transaction exists yet). -/
def lockedOutPoints (pkg : sendPackage) : List OutPoint :=
  match pkg.anchorTx with
  | none => []
  | some atx => atx.lockedUTXOs

/-- `unlockInputs`: unlock every UTXO locked by the package's anchor
transaction; a no-op when the package has no funded anchor transaction
(`pkg.AnchorTx`/`FundedPsbt` nil in Go).  Unlock errors are only logged
in Go, so the action is recorded unconditionally. -/
def unlockInputs (pkg : sendPackage) : List Act :=
  (lockedOutPoints pkg).map Act.unlockInput

/-- `fetchInputProof`: fetch and decode the proof file for an input from
the proof archive. -/
def fetchInputProof (env : Env) (input : PrevID) : Outcome PFile :=
  let inputProofLocator : Locator :=
    ⟨input.assetId, input.scriptKey, input.outPoint⟩
  match env.fetchProof inputProofLocator with
  | none => .err .fetchProofFailed
  | some inputProofBytes =>
    match decodeFile inputProofBytes with
    | none => .err .decodeProofFailed
    | some inputProofFile => .ok inputProofFile

/-- The `idx := 1 ...` loop of `updateAssetProofFile`: fetch the proof
file of each additional input, in list order. -/
def fetchInputProofs (env : Env) : List PrevID → Outcome (List PFile)
  | [] => .ok []
  | i :: is =>
    match fetchInputProof env i with
    | .err e => .err e
    | .crash => .crash
    | .ok f =>
      match fetchInputProofs env is with
      | .err e => .err e
      | .crash => .crash
      | .ok fs => .ok (f :: fs)

/-- `updateAssetProofFile`: enrich the suffix with the confirmation
data, fetch the first input's proof file as the trunk, attach every
additional input's proof file to the suffix, append the suffix and
re-encode.  The `confEvent` pointer dereference and the unguarded
`inputs[0]` access crash on `none` / the empty list. -/
def updateAssetProofFile (env : Env) (inputs : List PrevID)
    (proofSuffix : PTree) (newScriptKey : PubKey)
    (confEvent : Option ConfData) : Outcome AnnotatedProof :=
  match confEvent with
  | none => .crash
  | some conf =>
    let suffix1 := updateTransitionProof proofSuffix conf
    match inputs with
    | [] => .crash
    | firstInput :: rest =>
      match fetchInputProof env firstInput with
      | .err e => .err e
      | .crash => .crash
      | .ok inputProofFile =>
        match fetchInputProofs env rest with
        | .err e => .err e
        | .crash => .crash
        | .ok additionalFiles =>
          let suffix2 := withAdditional suffix1 additionalFiles
          let newFile := appendProof inputProofFile suffix2
          let outputProofLocator : Locator :=
            ⟨firstInput.assetId, newScriptKey, suffix2.outPoint⟩
          .ok ⟨outputProofLocator, encodeFile newFile⟩

/-- The `SendStateVirtualCommitmentSelect` case of `stateStep`: require
an address parcel and delegate to `FundAddressSend`. -/
def stepCommitmentSelect (env : Env) (pkg : sendPackage) : StepRes :=
  match pkg.parcel with
  | .address _ _ =>
    match env.fundAddressSend with
    | none => ⟨[], .err .fundAddressSendFailed pkg⟩
    | some fundSendRes =>
      ⟨[], .ok { pkg with
        virtualPackets := [fundSendRes.vPacket],
        inputCommitments := fundSendRes.inputCommitments,
        sendState := .VirtualSign }⟩
  | _ => ⟨[], .err .wrongParcelVariant pkg⟩

/-- The `SendStateVirtualSign` case of `stateStep`: validate packet
versions, then sign every virtual packet. -/
def stepVirtualSign (env : Env) (pkg : sendPackage) : StepRes :=
  if !env.validateVPacketVersionsOk then
    ⟨[], .err .vPacketVersionInvalid pkg⟩
  else if pkg.virtualPackets.all env.signVirtualPacketOk then
    ⟨[], .ok { pkg with sendState := .AnchorSign }⟩
  else
    ⟨[], .err .signVirtualPacketFailed pkg⟩

/-- The `SendStateAnchorSign` case of `stateStep`: determine the fee
rate, create and sign passive assets, anchor the virtual transactions,
then validate the package; a validation failure unlocks the inputs. -/
def stepAnchorSign (env : Env) (pkg : sendPackage) : StepRes :=
  let feeRate : Option Nat :=
    match pkg.parcel with
    | .address _ (some manualRate) => some manualRate
    | _ => env.estimateFee
  match feeRate with
  | none => ⟨[], .err .feeEstimationFailed pkg⟩
  | some _ =>
    match env.createPassiveAssets with
    | none => ⟨[], .err .createPassiveAssetsFailed pkg⟩
    | some passive =>
      let pkg1 := { pkg with passiveAssets := passive }
      if !env.signPassiveAssetsOk then
        ⟨[], .err .signPassiveAssetsFailed pkg1⟩
      else
        match env.anchorVirtualTransactions with
        | none => ⟨[], .err .anchorVTxFailed pkg1⟩
        | some anchorTx =>
          let pkg2 := { pkg1 with anchorTx := some anchorTx }
          if !env.validateReadyOk then
            ⟨unlockInputs pkg2, .err .validateFailed pkg2⟩
          else
            ⟨[], .ok { pkg2 with sendState := .StorePreBroadcast }⟩

/-- The `SendStateStorePreBroadcast` case of `stateStep`: read the chain
height, convert to an `OutboundParcel` and persist it; every failure
unlocks the inputs. -/
def stepStorePreBroadcast (env : Env) (pkg : sendPackage) : StepRes :=
  match env.currentHeight with
  | none => ⟨unlockInputs pkg, .err .currentHeightFailed pkg⟩
  | some _ =>
    match env.convertToTransfer with
    | none => ⟨unlockInputs pkg, .err .convertToTransferFailed pkg⟩
    | some parcel =>
      let pkg1 := { pkg with outboundPkg := some parcel }
      if !env.logPendingParcelOk then
        ⟨Act.logPendingParcel :: unlockInputs pkg1,
          .err .logPendingParcelFailed pkg1⟩
      else
        ⟨[Act.logPendingParcel], .ok { pkg1 with sendState := .Broadcast }⟩

/-- `importLocalAddresses`, inner loop: for every local output, extract
the anchor output key and import it into the wallet, tolerating
"already exists". -/
def importLocalAddressesGo (env : Env) : List TransferOutput → Outcome Unit
  | [] => .ok ()
  | out :: rest =>
    if !out.scriptKeyLocal then importLocalAddressesGo env rest
    else
      match env.anchorOutputKey out.anchorOutPoint.index with
      | none => .err .importLocalAddressesFailed
      | some anchorOutputKey =>
        match env.importTaprootOutput anchorOutputKey with
        | .imported => importLocalAddressesGo env rest
        | .alreadyExists => importLocalAddressesGo env rest
        | .importErr => .err .importLocalAddressesFailed

/-- `importLocalAddresses`: import the anchor output keys of all local
outputs of the outbound parcel into the Bitcoin wallet. -/
def importLocalAddresses (env : Env) (parcel : OutboundParcel) :
    Outcome Unit :=
  importLocalAddressesGo env parcel.outputs

/-- The `SendStateBroadcast` case of `stateStep`: import local
addresses (unlocking on failure), publish the anchor transaction
(double-spend unlocks and is terminal; other publish errors do not
unlock), then signal the broadcast response. -/
def stepBroadcast (env : Env) (pkg : sendPackage) : StepRes :=
  match pkg.outboundPkg with
  | none => ⟨[], .crash⟩
  | some parcel =>
    match importLocalAddresses env parcel with
    | .err _ => ⟨unlockInputs pkg, .err .importLocalAddressesFailed pkg⟩
    | .crash => ⟨[], .crash⟩
    | .ok _ =>
      match env.publish with
      | .doubleSpendErr =>
        ⟨Act.publishTx :: unlockInputs pkg, .err .doubleSpend pkg⟩
      | .otherErr =>
        ⟨[Act.publishTx], .err .publishFailed pkg⟩
      | .published =>
        ⟨[Act.publishTx, Act.broadcastResp],
          .ok { pkg with sendState := .WaitTxConf }⟩

/-- `waitForTransferTxConf`: register a confirmation notification, then
block on the select.  A confirmation records the event and advances to
`StoreProofs`; a notifier error returns it; a context-done without a
confirmation falls through to the "empty confirmation event" error; the
quit signal returns nil with the package untouched. -/
def waitForTransferTxConf (env : Env) (pkg : sendPackage) : StepRes :=
  match pkg.outboundPkg with
  | none => ⟨[], .crash⟩
  | some _ =>
    if !env.registerConfOk then
      ⟨[], .err .registerConfFailed pkg⟩
    else
      match env.waitConf with
      | .confirmed confEvent =>
        ⟨[], .ok { pkg with
          transferTxConfEvent := some confEvent,
          sendState := .StoreProofs }⟩
      | .notifierErr => ⟨[], .err .notifierFailed pkg⟩
      | .ctxDone => ⟨[], .err .emptyConfEvent pkg⟩
      | .quitSignal => ⟨[], .ok pkg⟩

/-- The passive-asset loop of `storeProofs`: for each passive packet,
build the updated proof file for its first output via
`updateAssetProofFile`; collect the annotated files and the suffixes
handed to the re-org watcher. -/
def buildPassiveProofs (env : Env) (confEvent : Option ConfData) :
    List VPacket → Outcome (List AnnotatedProof × List PTree)
  | [] => .ok ([], [])
  | pkt :: rest =>
    match pkt.outputs with
    | [] => .crash
    | passiveOut :: _ =>
      match updateAssetProofFile env pkt.inputs passiveOut.proofSuffix
          passiveOut.assetScriptKey confEvent with
      | .err e => .err e
      | .crash => .crash
      | .ok newAnnotatedProofFile =>
        match buildPassiveProofs env confEvent rest with
        | .err e => .err e
        | .crash => .crash
        | .ok (files, suffixes) =>
          .ok (newAnnotatedProofFile :: files,
            passiveOut.proofSuffix :: suffixes)

/-- The `in.PrevID == *witness.PrevID` double loop of `storeProofs`:
the parcel inputs that match some witness of the decoded suffix, in
parcel-input order (an input appears once per matching witness). -/
def inputsForAsset (inputs : List PrevID) (parsedSuffix : PTree) :
    List PrevID :=
  inputs.foldr (fun i acc =>
    ((parsedSuffix.witnessPrevIds.filter
      (fun w => decide (w = some i))).map (fun _ => i)) ++ acc) []

/-- The active-output loop of `storeProofs`: decode each output's proof
suffix, build the updated proof file from the matching inputs, verify
it, import it, and watch change-output proofs.  Returns the trace of
archive/watcher effects and the accumulated `FinalProofs` entries. -/
def storeActiveProofs (env : Env) (confEvent : Option ConfData)
    (inputs : List PrevID) (fp : List (PubKey × AnnotatedProof)) :
    List TransferOutput →
      List Act × Outcome (List (PubKey × AnnotatedProof))
  | [] => ([], .ok fp)
  | out :: rest =>
    match decodeSuffix out.proofSuffix with
    | none => ([], .err .decodeSuffixFailed)
    | some parsedSuffix =>
      match updateAssetProofFile env (inputsForAsset inputs parsedSuffix)
          parsedSuffix out.scriptKey confEvent with
      | .crash => ([], .crash)
      | .err e => ([], .err e)
      | .ok outputProof =>
        if !env.verifyProofOk then ([], .err .verifyProofFailed)
        else if !env.importProofsOk then
          ([Act.importProofs [outputProof]], .err .importProofsFailed)
        else if (out.scriptKeyTweaked && out.scriptKeyLocal) &&
            !env.watchProofsOk then
          ([Act.importProofs [outputProof], Act.watchProofs],
            .err .watchProofsFailed)
        else
          (Act.importProofs [outputProof] ::
            ((if out.scriptKeyTweaked && out.scriptKeyLocal then
                [Act.watchProofs] else []) ++
              (storeActiveProofs env confEvent inputs
                (fp ++ [(out.scriptKey, outputProof)]) rest).1),
            (storeActiveProofs env confEvent inputs
              (fp ++ [(out.scriptKey, outputProof)]) rest).2)

/-- `storeProofs`: build and import the passive proof files, watch their
suffixes, then (only when the parcel has active inputs) build, verify,
store and watch the active-output proofs, filling `FinalProofs`. -/
def storeProofs (env : Env) (pkg : sendPackage) : StepRes :=
  match pkg.outboundPkg with
  | none => ⟨[], .crash⟩
  | some parcel =>
    match buildPassiveProofs env pkg.transferTxConfEvent
        pkg.passiveAssets with
    | .crash => ⟨[], .crash⟩
    | .err e => ⟨[], .err e pkg⟩
    | .ok (passiveAssetProofFiles, passiveAssetProofSuffixes) =>
      if !env.importProofsOk then
        ⟨[Act.importProofs passiveAssetProofFiles],
          .err .importProofsFailed pkg⟩
      else if !passiveAssetProofSuffixes.isEmpty && !env.watchProofsOk then
        ⟨[Act.importProofs passiveAssetProofFiles, Act.watchProofs],
          .err .watchProofsFailed pkg⟩
      else
        let watchPassive :=
          if passiveAssetProofSuffixes.isEmpty then []
          else [Act.watchProofs]
        if parcel.inputs.isEmpty then
          ⟨Act.importProofs passiveAssetProofFiles :: watchPassive,
            .ok { pkg with sendState := .TransferProofs }⟩
        else
          let pkg1 := { pkg with finalProofs := some [] }
          let recCall := storeActiveProofs env pkg.transferTxConfEvent
            parcel.inputs [] parcel.outputs
          match recCall.2 with
          | .crash =>
            ⟨Act.importProofs passiveAssetProofFiles ::
              watchPassive ++ recCall.1, .crash⟩
          | .err e =>
            ⟨Act.importProofs passiveAssetProofFiles ::
              watchPassive ++ recCall.1, .err e pkg1⟩
          | .ok fp =>
            ⟨Act.importProofs passiveAssetProofFiles ::
              watchPassive ++ recCall.1,
              .ok { pkg1 with
                finalProofs := some fp,
                sendState := .TransferProofs }⟩

/-- The `SendStateTransferProofs` case of `stateStep`: set the state to
`Complete` so the main loop exits; `transferReceiverProof` then runs as
a detached task (modelled separately). -/
def stepTransferProofs (_env : Env) (pkg : sendPackage) : StepRes :=
  ⟨[], .ok { pkg with sendState := .Complete }⟩

/-- `stateStep`: one step of the chain porter state machine, dispatching
on the package's `SendState`; the default case errors on an unknown
state. -/
def stateStep (env : Env) (pkg : sendPackage) : StepRes :=
  match pkg.sendState with
  | .VirtualCommitmentSelect => stepCommitmentSelect env pkg
  | .VirtualSign => stepVirtualSign env pkg
  | .AnchorSign => stepAnchorSign env pkg
  | .StorePreBroadcast => stepStorePreBroadcast env pkg
  | .Broadcast => stepBroadcast env pkg
  | .WaitTxConf => waitForTransferTxConf env pkg
  | .StoreProofs => storeProofs env pkg
  | .TransferProofs => stepTransferProofs env pkg
  | .Complete => ⟨[], .err .unknownState pkg⟩

/-- The lookup of the receiver proof in `FinalProofs` by script key. -/
def findProof (fp : Option (List (PubKey × AnnotatedProof)))
    (key : PubKey) : Option AnnotatedProof :=
  match fp with
  | none => none
  | some entries =>
    (entries.find? (fun e => e.2.locator.scriptKey == key)).map (·.2)

/-- The per-output `deliver` closure of `transferReceiverProof`: skip
local, unspendable, burn and courier-less outputs; otherwise look up the
final proof, parse the courier address, open a courier through the
dispatcher and deliver, swallowing backoff errors. -/
def deliverOne (env : Env) (fp : Option (List (PubKey × AnnotatedProof)))
    (out : TransferOutput) : List Act × Option PErr :=
  if out.scriptKeyTweaked && out.scriptKeyLocal then ([], none)
  else if env.isUnSpendable out.scriptKey then ([], none)
  else if (match out.witnessData with
      | w :: _ => env.isBurnKey out.scriptKey w
      | [] => false) then ([], none)
  else if out.proofCourierAddr.isEmpty then ([], none)
  else
    match findProof fp out.scriptKey with
    | none => ([], some .noProofFound)
    | some _receiverProof =>
      match env.parseCourierAddr out.proofCourierAddr with
      | none => ([], some .parseCourierAddrFailed)
      | some proofCourierAddr =>
        if !env.newCourierOk out.scriptKey then
          ([], some .newCourierFailed)
        else
          let tr := [Act.courierNew proofCourierAddr out.scriptKey,
            Act.courierDeliver out.scriptKey]
          match env.deliverProof out.scriptKey with
          | .delivered => (tr, none)
          | .backoff => (tr, none)
          | .failed => (tr, some .deliverProofFailed)

/-- `fn.ParSlice` over the outputs: every delivery runs; the first
error (in output order) is the error of the whole batch. -/
def runDeliveries (env : Env)
    (fp : Option (List (PubKey × AnnotatedProof))) :
    List TransferOutput → List Act × Option PErr
  | [] => ([], none)
  | out :: rest =>
    let (tr, e) := deliverOne env fp out
    let (tr', e') := runDeliveries env fp rest
    (tr ++ tr', match e with | some x => some x | none => e')

/-- The passive-proof loading loop of `transferReceiverProof`: fetch the
archived proof file of each passive asset's first output. -/
def fetchPassiveFiles (env : Env) :
    List VPacket → Outcome (List AnnotatedProof)
  | [] => .ok []
  | pkt :: rest =>
    match pkt.outputs with
    | [] => .crash
    | passiveOut :: _ =>
      let proofLocator : Locator :=
        ⟨passiveOut.assetId, passiveOut.scriptKeyPub,
          passiveOut.proofSuffix.outPoint⟩
      match env.fetchProof proofLocator with
      | none => .err .fetchPassiveProofFailed
      | some proofFileBlob =>
        match fetchPassiveFiles env rest with
        | .err e => .err e
        | .crash => .crash
        | .ok files => .ok (⟨proofLocator, proofFileBlob⟩ :: files)

/-- `transferReceiverProof`: deliver the receiver proofs for every
output in parallel; after every delivery succeeded or was skipped, load
the passive proof files, confirm the parcel delivery in the export log,
and emit the `Complete` event. -/
def transferReceiverProof (env : Env) (pkg : sendPackage) : StepRes :=
  match pkg.outboundPkg with
  | none => ⟨[], .crash⟩
  | some parcel =>
    let (dtr, derr) := runDeliveries env pkg.finalProofs parcel.outputs
    match derr with
    | some e => ⟨dtr, .err e pkg⟩
    | none =>
      match fetchPassiveFiles env parcel.passiveAssets with
      | .crash => ⟨dtr, .crash⟩
      | .err e => ⟨dtr, .err e pkg⟩
      | .ok _passiveAssetProofFiles =>
        match pkg.transferTxConfEvent with
        | none => ⟨dtr, .crash⟩
        | some _ =>
          if !env.confirmParcelDeliveryOk then
            ⟨dtr ++ [Act.confirmParcelDelivery],
              .err .confirmDeliveryFailed pkg⟩
          else
            ⟨dtr ++ [Act.confirmParcelDelivery,
              Act.emitEvent .Complete],
              .ok { pkg with sendState := .Complete }⟩

/-- The `advanceState` loop, with one environment per iteration (the
list doubles as fuel): while the state is below `Complete`, check the
quit signal, execute one `stateStep`, and stop on any error.  Returns
the list of states that were executed, in order. -/
def advanceStates : List Env → sendPackage → List SendState
  | [], _ => []
  | env :: envs, pkg =>
    if pkg.sendState < SendState.Complete then
      if env.quit then []
      else
        match (stateStep env pkg).result with
        | .ok pkg' => pkg.sendState :: advanceStates envs pkg'
        | _ => [pkg.sendState]
    else []

/-- The quit signal is a closed channel: once it has fired inside the
confirmation wait, it is set at the top of every later iteration. -/
def quitMono : List Env → Bool
  | [] => true
  | [_] => true
  | env1 :: env2 :: rest =>
    (!(decide (env1.waitConf = .quitSignal)) || env2.quit) &&
      quitMono (env2 :: rest)

/-- A list of states that is strictly increasing step to step. -/
def StrictlyIncreasing : List SendState → Prop
  | [] => True
  | [_] => True
  | a :: b :: rest => a < b ∧ StrictlyIncreasing (b :: rest)

/-- An event receiver, reduced to its subscription ID. -/
structure EventReceiver where
  id : Nat
deriving DecidableEq, Repr

/-- Assignment into the subscriber map, keyed by the receiver's ID. -/
def insertSub (subscribers : List (Nat × EventReceiver))
    (receiver : EventReceiver) : List (Nat × EventReceiver) :=
  (subscribers.filter (fun e => !(e.1 == receiver.id))) ++
    [(receiver.id, receiver)]

/-- `RegisterSubscriber`: store the receiver in the subscriber map under
its ID and return nil; the `deliverExisting` / `deliverFrom` flags are
accepted but not read. -/
def registerSubscriber (subscribers : List (Nat × EventReceiver))
    (receiver : EventReceiver) (deliverExisting deliverFrom : Bool) :
    List (Nat × EventReceiver) × Option PErr :=
  (insertSub subscribers receiver, none)

/-- The spec's delivery-skip condition, stated in the spec's own terms
(section 4.4 S8): local output, unspendable (tombstone) script key,
burn-marked first witness, or no proof courier address. -/
def specSkipsDelivery (env : Env) (out : TransferOutput) : Bool :=
  (out.scriptKeyTweaked && out.scriptKeyLocal) ||
  env.isUnSpendable out.scriptKey ||
  (match out.witnessData with
    | w :: _ => env.isBurnKey out.scriptKey w
    | [] => false) ||
  out.proofCourierAddr.isEmpty

/-- A concrete locked wallet outpoint, used in concrete evaluations. -/
def op0 : OutPoint := ⟨1, 0⟩

/-- A concrete input `PrevID`. -/
def prevId0 : PrevID := ⟨⟨2, 1⟩, 7, 11⟩

/-- A second concrete input `PrevID` (for a merge). -/
def prevId1 : PrevID := ⟨⟨2, 2⟩, 7, 12⟩

/-- A concrete confirmation event. -/
def confData0 : ConfData := ⟨100, 200, 3⟩

/-- A concrete pending proof suffix spending `prevId0`. -/
def suffix0 : PTree := .mk [some prevId0] ⟨5, 0⟩ none []

/-- A concrete trunk proof file for `prevId0`. -/
def trunkFile0 : PFile := [.mk [] ⟨9, 9⟩ none []]

/-- A concrete proof file for the additional input `prevId1`. -/
def addFile0 : PFile := [.mk [] ⟨8, 8⟩ none []]

/-- A baseline environment in which every collaborator call succeeds,
the publish goes through, and the confirmation wait is interrupted by
the quit signal. -/
def envBase : Env :=
  { quit := false
    fundAddressSend := none
    validateVPacketVersionsOk := true
    signVirtualPacketOk := fun _ => true
    estimateFee := some 10
    createPassiveAssets := some []
    signPassiveAssetsOk := true
    anchorVirtualTransactions := none
    validateReadyOk := true
    currentHeight := some 500
    convertToTransfer := none
    logPendingParcelOk := true
    anchorOutputKey := fun _ => none
    importTaprootOutput := fun _ => .imported
    publish := .published
    registerConfOk := true
    waitConf := .quitSignal
    fetchProof := fun _ => none
    importProofsOk := true
    watchProofsOk := true
    verifyProofOk := true
    isUnSpendable := fun _ => false
    isBurnKey := fun _ _ => false
    parseCourierAddr := fun a => some a
    newCourierOk := fun _ => true
    deliverProof := fun _ => .delivered
    confirmParcelDeliveryOk := true }

/-- A baseline fresh send package for an address parcel. -/
def pkgBase : sendPackage :=
  { sendState := .VirtualCommitmentSelect
    parcel := .address [1] none
    virtualPackets := []
    inputCommitments := []
    passiveAssets := []
    anchorTx := none
    outboundPkg := none
    transferTxConfEvent := none
    finalProofs := none }

/-- A concrete outbound parcel with no inputs, outputs or passives. -/
def parcelEmpty : OutboundParcel := ⟨42, 500, [], [], []⟩

/-- A concrete local change output. -/
def outLocal : TransferOutput :=
  { scriptKey := 3
    scriptKeyTweaked := true
    scriptKeyLocal := true
    amount := 5
    anchorOutPoint := ⟨1, 0⟩
    proofSuffix := .corrupt
    proofCourierAddr := []
    witnessData := [] }

/-- A concrete outbound parcel with a single local output. -/
def parcelLocalOut : OutboundParcel := ⟨42, 500, [], [outLocal], []⟩

/-- An environment in which extracting the anchor output key during
`importLocalAddresses` fails. -/
def envImportFail : Env := { envBase with anchorOutputKey := fun _ => none }

/-- A package at `Broadcast` holding a locked UTXO, about to import a
local address whose key extraction fails. -/
def pkgBroadcastLocal : sendPackage :=
  { pkgBase with
    sendState := .Broadcast
    anchorTx := some ⟨[op0]⟩
    outboundPkg := some parcelLocalOut }

/-- A package at `Broadcast` with a locked UTXO and an empty parcel. -/
def pkgBroadcastEmpty : sendPackage :=
  { pkgBase with
    sendState := .Broadcast
    anchorTx := some ⟨[op0]⟩
    outboundPkg := some parcelEmpty }

/-- An environment in which publishing reports a double spend. -/
def envDoubleSpend : Env := { envBase with publish := .doubleSpendErr }

/-- A package blocked in the confirmation wait. -/
def pkgWaitConf : sendPackage :=
  { pkgBase with
    sendState := .WaitTxConf
    outboundPkg := some parcelEmpty }

/-- A package at `StorePreBroadcast` holding a locked UTXO. -/
def pkgStorePre : sendPackage :=
  { pkgBase with
    sendState := .StorePreBroadcast
    anchorTx := some ⟨[op0]⟩ }

/-- An environment whose proof archive holds the files of `prevId0` and
`prevId1`. -/
def envArchive : Env :=
  { envBase with
    fetchProof := fun loc =>
      if loc.outPoint = prevId0.outPoint then some (encodeFile trunkFile0)
      else if loc.outPoint = prevId1.outPoint then
        some (encodeFile addFile0)
      else none }

/-- A passive-only package at `StoreProofs` (no active inputs). -/
def pkgStoreProofsPassive : sendPackage :=
  { pkgBase with
    sendState := .StoreProofs
    outboundPkg := some parcelEmpty
    transferTxConfEvent := some confData0 }

/-- A proof suffix whose only witness has no previous ID, so no parcel
input can match it. -/
def suffixNoMatch : PTree := .mk [none] ⟨5, 0⟩ none []

/-- An output whose decoded suffix is `suffixNoMatch`. -/
def outNoMatch : TransferOutput :=
  { outLocal with proofSuffix := .suffixBlob suffixNoMatch }

/-- A parcel with one input whose `PrevID` matches no suffix witness. -/
def parcelNoMatch : OutboundParcel := ⟨42, 500, [prevId0], [outNoMatch], []⟩

/-- A package at `StoreProofs` whose only output's suffix matches no
parcel input. -/
def pkgStoreProofsNoMatch : sendPackage :=
  { pkgBase with
    sendState := .StoreProofs
    outboundPkg := some parcelNoMatch
    transferTxConfEvent := some confData0 }

/-- C10: `RegisterSubscriber`'s behaviour is independent of its
`deliverExisting` / `deliverFrom` arguments: for any receiver and any
two flag assignments the resulting subscriber map is the same (the
receiver is registered under its ID for future events only) and the
returned error is nil in both runs. -/
theorem registerSubscriber_flags_independent :
    ∀ (subscribers : List (Nat × EventReceiver)) (receiver : EventReceiver)
      (d1 d2 d1' d2' : Bool),
      registerSubscriber subscribers receiver d1 d2 =
        registerSubscriber subscribers receiver d1' d2' ∧
      registerSubscriber subscribers receiver d1 d2 =
        (insertSub subscribers receiver, none) :=
  fun _ _ _ _ _ _ => ⟨rfl, rfl⟩

/-- C3: on a successful `updateAssetProofFile` call with a non-empty
input list, the returned blob is the decoded proof file of the first
input with the confirmation-enriched suffix appended and re-encoded,
every additional input's proof file is appended to the suffix's
`AdditionalInputs` in the caller-supplied order, and the locator is
(first input's asset id, new script key, suffix outpoint). -/
theorem updateAssetProofFile_spec :
    ∀ (env : Env) (firstInput : PrevID) (rest : List PrevID)
      (suffix : PTree) (newScriptKey : PubKey) (conf : ConfData)
      (trunk : PFile) (files : List PFile),
      fetchInputProof env firstInput = .ok trunk →
      fetchInputProofs env rest = .ok files →
      updateAssetProofFile env (firstInput :: rest) suffix newScriptKey
          (some conf) =
        .ok ⟨⟨firstInput.assetId, newScriptKey, suffix.outPoint⟩,
          encodeFile (appendProof trunk
            (withAdditional (updateTransitionProof suffix conf) files))⟩ ∧
      (withAdditional (updateTransitionProof suffix conf)
          files).additionalInputs = suffix.additionalInputs ++ files ∧
      (withAdditional (updateTransitionProof suffix conf)
          files).outPoint = suffix.outPoint := by
  intro env firstInput rest suffix newScriptKey conf trunk files h1 h2
  obtain ⟨w, o, c, a⟩ := suffix
  refine ⟨?_, rfl, rfl⟩
  simp [updateAssetProofFile, h1, h2, updateTransitionProof,
    withAdditional, PTree.outPoint]

/-- Witness for C3 at a concrete merge of two inputs. -/
theorem updateAssetProofFile_spec_witness :
    fetchInputProof envArchive prevId0 = .ok trunkFile0 ∧
    updateAssetProofFile envArchive [prevId0, prevId1] suffix0 13
        (some confData0) =
      .ok ⟨⟨prevId0.assetId, 13, suffix0.outPoint⟩,
        encodeFile (appendProof trunkFile0
          (withAdditional (updateTransitionProof suffix0 confData0)
            [addFile0]))⟩ :=
  ⟨rfl,
    (updateAssetProofFile_spec envArchive prevId0 [prevId1] suffix0 13
      confData0 trunkFile0 [addFile0] rfl rfl).1⟩

/-- C6: when the engine's quit signal fires while blocked in the
confirmation wait, `waitForTransferTxConf` (and hence `stateStep` at
`WaitTxConf`) returns without an error and leaves the package — in
particular its `SendState`, still `WaitTxConf` — untouched. -/
theorem waitTxConf_quit_preserves_state :
    ∀ (env : Env) (pkg : sendPackage) (parcel : OutboundParcel),
      pkg.sendState = .WaitTxConf →
      pkg.outboundPkg = some parcel →
      env.registerConfOk = true →
      env.waitConf = .quitSignal →
      waitForTransferTxConf env pkg = ⟨[], .ok pkg⟩ ∧
      stateStep env pkg = ⟨[], .ok pkg⟩ := by
  intro env pkg parcel hs ho hr hw
  have h1 : waitForTransferTxConf env pkg = ⟨[], .ok pkg⟩ := by
    unfold waitForTransferTxConf
    rw [ho, hr, hw]
    rfl
  exact ⟨h1, by rw [stateStep, hs]; exact h1⟩

/-- Witness for C6 at a concrete blocked package. -/
theorem waitTxConf_quit_preserves_state_witness :
    waitForTransferTxConf envBase pkgWaitConf = ⟨[], .ok pkgWaitConf⟩ ∧
    stateStep envBase pkgWaitConf = ⟨[], .ok pkgWaitConf⟩ :=
  waitTxConf_quit_preserves_state envBase pkgWaitConf parcelEmpty
    rfl rfl rfl rfl

/-- C2: in `Broadcast`, once local addresses have been imported, a
double-spend failure of `PublishTransaction` unlocks every UTXO locked
by the anchor transaction and returns the double-spend error, so the
run records only the `Broadcast` state and never executes `WaitTxConf`;
any other publish failure returns its error without unlocking any
UTXO. -/
theorem broadcast_doubleSpend_unlocks :
    ∀ (env : Env) (pkg : sendPackage) (parcel : OutboundParcel),
      pkg.sendState = .Broadcast →
      pkg.outboundPkg = some parcel →
      importLocalAddresses env parcel = .ok () →
      ((env.publish = .doubleSpendErr →
        stateStep env pkg =
          ⟨Act.publishTx :: unlockInputs pkg, .err .doubleSpend pkg⟩ ∧
        (∀ op ∈ lockedOutPoints pkg,
          Act.unlockInput op ∈ Act.publishTx :: unlockInputs pkg) ∧
        (∀ envs, env.quit = false →
          advanceStates (env :: envs) pkg = [SendState.Broadcast])) ∧
      (env.publish = .otherErr →
        stateStep env pkg = ⟨[Act.publishTx], .err .publishFailed pkg⟩ ∧
        (∀ op, Act.unlockInput op ∉ ([Act.publishTx] : List Act)))) := by
  intro env pkg parcel hs ho himp
  constructor
  · intro hds
    have h1 : stateStep env pkg =
        ⟨Act.publishTx :: unlockInputs pkg, .err .doubleSpend pkg⟩ := by
      simp only [stateStep, hs, stepBroadcast, ho, himp, hds]
    refine ⟨h1, ?_, ?_⟩
    · intro op hop
      exact List.mem_cons_of_mem _ (List.mem_map_of_mem Act.unlockInput hop)
    · intro envs hq
      unfold advanceStates
      rw [hq]
      have hlt : pkg.sendState < SendState.Complete := by
        rw [hs]; decide
      rw [if_pos hlt, h1, hs]
      rfl
  · intro hoe
    have h1 : stateStep env pkg =
        ⟨[Act.publishTx], .err .publishFailed pkg⟩ := by
      simp only [stateStep, hs, stepBroadcast, ho, himp, hoe]
    refine ⟨h1, ?_⟩
    intro op
    simp

/-- Witness for C2: a concrete double-spend at `Broadcast` unlocks the
locked UTXO and terminates. -/
theorem broadcast_doubleSpend_unlocks_witness :
    stateStep envDoubleSpend pkgBroadcastEmpty =
      ⟨Act.publishTx :: unlockInputs pkgBroadcastEmpty,
        .err .doubleSpend pkgBroadcastEmpty⟩ ∧
    Act.unlockInput op0 ∈
      Act.publishTx :: unlockInputs pkgBroadcastEmpty :=
  ⟨((broadcast_doubleSpend_unlocks envDoubleSpend pkgBroadcastEmpty
      parcelEmpty rfl rfl rfl).1 rfl).1,
    ((broadcast_doubleSpend_unlocks envDoubleSpend pkgBroadcastEmpty
      parcelEmpty rfl rfl rfl).1 rfl).2.1 op0 (by simp [lockedOutPoints,
        pkgBroadcastEmpty, pkgBase])⟩

/-- C8: when the persisted parcel has no inputs, `storeProofs` builds
and imports only the passive-asset proof files (watching their suffixes
when present), leaves `FinalProofs` untouched (unset), and advances the
state to `TransferProofs`. -/
theorem storeProofs_passive_only :
    ∀ (env : Env) (pkg : sendPackage) (parcel : OutboundParcel)
      (files : List AnnotatedProof) (suffixes : List PTree),
      pkg.outboundPkg = some parcel →
      parcel.inputs = [] →
      buildPassiveProofs env pkg.transferTxConfEvent pkg.passiveAssets =
        .ok (files, suffixes) →
      env.importProofsOk = true →
      (suffixes.isEmpty = false → env.watchProofsOk = true) →
      storeProofs env pkg =
        ⟨Act.importProofs files ::
          (if suffixes.isEmpty then [] else [Act.watchProofs]),
          .ok { pkg with sendState := .TransferProofs }⟩ ∧
      ({ pkg with sendState := SendState.TransferProofs } :
        sendPackage).finalProofs = pkg.finalProofs := by
  intro env pkg parcel files suffixes ho hin hbuild himp hwatch
  refine ⟨?_, rfl⟩
  have hie : parcel.inputs.isEmpty = true := by rw [hin]; rfl
  have hw2 : (!suffixes.isEmpty && !env.watchProofsOk) = false := by
    cases hse : suffixes.isEmpty with
    | true => simp
    | false => simp [hwatch hse]
  simp [storeProofs, ho, hbuild, himp, hw2, hie]

/-- Witness for C8 at a concrete passive-only package. -/
theorem storeProofs_passive_only_witness :
    storeProofs envBase pkgStoreProofsPassive =
      ⟨Act.importProofs [] ::
        (if (List.isEmpty ([] : List PTree)) then [] else [Act.watchProofs]),
        .ok { pkgStoreProofsPassive with sendState := .TransferProofs }⟩ :=
  (storeProofs_passive_only envBase pkgStoreProofsPassive parcelEmpty [] []
    rfl rfl rfl rfl (fun h => absurd h (by decide))).1

/-- The unguarded `inputs[0]` access (and the `confEvent` dereference
before it): `updateAssetProofFile` crashes on an empty input list. -/
theorem updateAssetProofFile_nil (env : Env) (s : PTree) (key : PubKey)
    (c : Option ConfData) :
    updateAssetProofFile env [] s key c = .crash := by
  cases c <;> rfl

/-- When no input matches any witness of the suffix, the input-matching
double loop of `storeProofs` produces the empty list. -/
theorem inputsForAsset_eq_nil (inputs : List PrevID) (s : PTree)
    (h : ∀ i ∈ inputs, (some i) ∉ s.witnessPrevIds) :
    inputsForAsset inputs s = [] := by
  induction inputs with
  | nil => rfl
  | cons i is ih =>
    have h1 : (s.witnessPrevIds.filter (fun w => decide (w = some i))) =
        [] := by
      rw [List.filter_eq_nil_iff]
      intro w hw
      simp only [decide_eq_true_eq]
      intro heq
      exact h i (List.mem_cons_self i is) (heq ▸ hw)
    have ih' := ih (fun j hj => h j (List.mem_cons_of_mem i hj))
    simp only [inputsForAsset, List.foldr_cons, h1] at ih' ⊢
    simpa using ih'

/-- C9: `updateAssetProofFile` has the implicit precondition that its
input list is non-empty — on the empty list the unguarded first-input
access crashes — and `storeProofs` reaches that crash whenever no
parcel input's `PrevID` equals any witness `PrevID` of the decoded
proof suffix of an output. -/
theorem updateAssetProofFile_empty_inputs_reachable :
    (∀ (env : Env) (s : PTree) (key : PubKey) (c : Option ConfData),
      updateAssetProofFile env [] s key c = .crash) ∧
    (∀ (env : Env) (pkg : sendPackage) (parcel : OutboundParcel)
      (out : TransferOutput) (rest : List TransferOutput) (s : PTree),
      pkg.outboundPkg = some parcel →
      pkg.passiveAssets = [] →
      env.importProofsOk = true →
      parcel.inputs ≠ [] →
      parcel.outputs = out :: rest →
      decodeSuffix out.proofSuffix = some s →
      (∀ i ∈ parcel.inputs, (some i) ∉ s.witnessPrevIds) →
      storeProofs env pkg = ⟨[Act.importProofs []], .crash⟩) := by
  constructor
  · exact updateAssetProofFile_nil
  · intro env pkg parcel out rest s ho hpa himp hne houts hdec hnomatch
    have hie : parcel.inputs.isEmpty = false := by
      cases hp : parcel.inputs with
      | nil => exact absurd hp hne
      | cons a l => rfl
    have hifa : inputsForAsset parcel.inputs s = [] :=
      inputsForAsset_eq_nil _ _ hnomatch
    have hact : storeActiveProofs env pkg.transferTxConfEvent
        parcel.inputs [] (out :: rest) = ([], .crash) := by
      simp only [storeActiveProofs, hdec, hifa, updateAssetProofFile_nil]
    simp [storeProofs, ho, hpa, buildPassiveProofs, himp, hie, houts, hact]

/-- Witness for C9: a concrete one-input parcel whose output suffix has
no matching witness crashes `storeProofs`. -/
theorem updateAssetProofFile_empty_inputs_reachable_witness :
    updateAssetProofFile envBase [] suffixNoMatch 3 (some confData0) =
      .crash ∧
    storeProofs envBase pkgStoreProofsNoMatch =
      ⟨[Act.importProofs []], .crash⟩ :=
  ⟨updateAssetProofFile_empty_inputs_reachable.1 envBase suffixNoMatch 3
      (some confData0),
    updateAssetProofFile_empty_inputs_reachable.2 envBase
      pkgStoreProofsNoMatch parcelNoMatch outNoMatch [] suffixNoMatch
      rfl rfl rfl (by decide) rfl rfl (by decide)⟩

/-- C7: during proof delivery an output is skipped — no courier is
contacted and the delivery closure returns nil — exactly when it is a
local output (tweaked script key marked local), or its script key is
unspendable (tombstone), or its first witness marks a burn, or its
proof courier address is empty; for every other output whose delivery
returns nil, a courier was obtained from the dispatcher and the proof
was handed to it. -/
theorem deliver_skip_iff :
    ∀ (env : Env) (fp : Option (List (PubKey × AnnotatedProof)))
      (out : TransferOutput),
      (deliverOne env fp out = ([], none) ↔
        specSkipsDelivery env out = true) ∧
      (specSkipsDelivery env out = false →
        (deliverOne env fp out).2 = none →
        (∃ addr,
          Act.courierNew addr out.scriptKey ∈ (deliverOne env fp out).1) ∧
        Act.courierDeliver out.scriptKey ∈ (deliverOne env fp out).1) := by
  intro env fp out
  unfold deliverOne specSkipsDelivery
  cases h1 : (out.scriptKeyTweaked && out.scriptKeyLocal) with
  | true => simp
  | false =>
    cases h2 : env.isUnSpendable out.scriptKey with
    | true => simp
    | false =>
      cases h3 : (match out.witnessData with
          | w :: _ => env.isBurnKey out.scriptKey w
          | [] => false) with
      | true => simp
      | false =>
        cases h4 : out.proofCourierAddr.isEmpty with
        | true => simp
        | false =>
          cases hf : findProof fp out.scriptKey with
          | none => simp
          | some rp =>
            cases hpc : env.parseCourierAddr out.proofCourierAddr with
            | none => simp
            | some addr =>
              cases hnc : env.newCourierOk out.scriptKey with
              | false => simp
              | true =>
                cases hd : env.deliverProof out.scriptKey with
                | delivered =>
                  exact ⟨by simp, fun _ _ => ⟨⟨addr, by simp⟩, by simp⟩⟩
                | backoff =>
                  exact ⟨by simp, fun _ _ => ⟨⟨addr, by simp⟩, by simp⟩⟩
                | failed => simp

/-- Witness for C7: a concrete local output is skipped. -/
theorem deliver_skip_iff_witness :
    deliverOne envBase none outLocal = ([], none) :=
  (deliver_skip_iff envBase none outLocal).1.mpr (by decide)

/-- A single delivery never confirms the parcel or emits an event: its
trace holds courier actions only. -/
theorem deliverOne_no_confirm (env : Env)
    (fp : Option (List (PubKey × AnnotatedProof))) (out : TransferOutput) :
    Act.confirmParcelDelivery ∉ (deliverOne env fp out).1 ∧
    ∀ s, Act.emitEvent s ∉ (deliverOne env fp out).1 := by
  unfold deliverOne
  cases h1 : (out.scriptKeyTweaked && out.scriptKeyLocal) with
  | true => simp
  | false =>
    cases h2 : env.isUnSpendable out.scriptKey with
    | true => simp
    | false =>
      cases h3 : (match out.witnessData with
          | w :: _ => env.isBurnKey out.scriptKey w
          | [] => false) with
      | true => simp
      | false =>
        cases h4 : out.proofCourierAddr.isEmpty with
        | true => simp
        | false =>
          cases hf : findProof fp out.scriptKey with
          | none => simp
          | some rp =>
            cases hpc : env.parseCourierAddr out.proofCourierAddr with
            | none => simp
            | some addr =>
              cases hnc : env.newCourierOk out.scriptKey with
              | false => simp
              | true =>
                cases hd : env.deliverProof out.scriptKey <;> simp

/-- Unfolding one step of the parallel delivery batch. -/
theorem runDeliveries_cons (env : Env)
    (fp : Option (List (PubKey × AnnotatedProof))) (out : TransferOutput)
    (rest : List TransferOutput) :
    runDeliveries env fp (out :: rest) =
      ((deliverOne env fp out).1 ++ (runDeliveries env fp rest).1,
        match (deliverOne env fp out).2 with
        | some x => some x
        | none => (runDeliveries env fp rest).2) := by
  rcases h1 : deliverOne env fp out with ⟨tr, e⟩
  rcases h2 : runDeliveries env fp rest with ⟨tr2, e2⟩
  unfold runDeliveries
  rw [h1, h2]

/-- The whole delivery batch never confirms the parcel or emits an
event. -/
theorem runDeliveries_no_confirm (env : Env)
    (fp : Option (List (PubKey × AnnotatedProof))) :
    ∀ (outs : List TransferOutput),
      Act.confirmParcelDelivery ∉ (runDeliveries env fp outs).1 ∧
      ∀ s, Act.emitEvent s ∉ (runDeliveries env fp outs).1 := by
  intro outs
  induction outs with
  | nil => simp [runDeliveries]
  | cons out rest ih =>
    rw [runDeliveries_cons]
    dsimp only
    refine ⟨?_, ?_⟩
    · intro hmem
      rcases List.mem_append.mp hmem with h | h
      · exact (deliverOne_no_confirm env fp out).1 h
      · exact ih.1 h
    · intro s hmem
      rcases List.mem_append.mp hmem with h | h
      · exact (deliverOne_no_confirm env fp out).2 s h
      · exact ih.2 s h

/-- C5: `transferReceiverProof` confirms the parcel delivery and emits
the `Complete` event only after the per-output delivery has returned
success or skipped for every output: if the delivery batch fails, the
function returns that error and its trace contains neither the
confirmation nor the `Complete` event; if the batch succeeds, every
action of the function is the delivery trace followed by a suffix, so
any confirmation or `Complete` event comes after all deliveries. -/
theorem transferReceiverProof_confirm_after_delivery :
    ∀ (env : Env) (pkg : sendPackage) (parcel : OutboundParcel),
      pkg.outboundPkg = some parcel →
      ((∀ e,
        (runDeliveries env pkg.finalProofs parcel.outputs).2 = some e →
        transferReceiverProof env pkg =
          ⟨(runDeliveries env pkg.finalProofs parcel.outputs).1,
            .err e pkg⟩ ∧
        Act.confirmParcelDelivery ∉ (transferReceiverProof env pkg).trace ∧
        Act.emitEvent .Complete ∉ (transferReceiverProof env pkg).trace) ∧
      ((runDeliveries env pkg.finalProofs parcel.outputs).2 = none →
        ∃ suffixTrace, (transferReceiverProof env pkg).trace =
          (runDeliveries env pkg.finalProofs parcel.outputs).1 ++
            suffixTrace)) := by
  intro env pkg parcel ho
  rcases hrd : runDeliveries env pkg.finalProofs parcel.outputs
    with ⟨dtr, derr⟩
  constructor
  · intro e he
    have hde : derr = some e := by simpa using he
    subst hde
    have htp : transferReceiverProof env pkg = ⟨dtr, .err e pkg⟩ := by
      simp only [transferReceiverProof, ho, hrd]
    have hnc := runDeliveries_no_confirm env pkg.finalProofs parcel.outputs
    rw [hrd] at hnc
    refine ⟨by rw [htp], ?_, ?_⟩
    · rw [htp]; exact hnc.1
    · rw [htp]; exact hnc.2 .Complete
  · intro hnone
    have hde : derr = none := by simpa using hnone
    subst hde
    cases hpf : fetchPassiveFiles env parcel.passiveAssets with
    | err e =>
      refine ⟨[], ?_⟩
      have htp : transferReceiverProof env pkg = ⟨dtr, .err e pkg⟩ := by
        simp only [transferReceiverProof, ho, hrd, hpf]
      rw [htp]; simp
    | crash =>
      refine ⟨[], ?_⟩
      have htp : transferReceiverProof env pkg = ⟨dtr, .crash⟩ := by
        simp only [transferReceiverProof, ho, hrd, hpf]
      rw [htp]; simp
    | ok files =>
      cases hce : pkg.transferTxConfEvent with
      | none =>
        refine ⟨[], ?_⟩
        have htp : transferReceiverProof env pkg = ⟨dtr, .crash⟩ := by
          simp only [transferReceiverProof, ho, hrd, hpf, hce]
        rw [htp]; simp
      | some c =>
        cases hcd : env.confirmParcelDeliveryOk with
        | false =>
          refine ⟨[Act.confirmParcelDelivery], ?_⟩
          have htp : transferReceiverProof env pkg =
              ⟨dtr ++ [Act.confirmParcelDelivery],
                .err .confirmDeliveryFailed pkg⟩ := by
            simp only [transferReceiverProof, ho, hrd, hpf, hce, hcd]
            rfl
          rw [htp]
        | true =>
          refine ⟨[Act.confirmParcelDelivery,
            Act.emitEvent .Complete], ?_⟩
          have htp : transferReceiverProof env pkg =
              ⟨dtr ++ [Act.confirmParcelDelivery,
                Act.emitEvent .Complete],
                .ok { pkg with sendState := .Complete }⟩ := by
            simp only [transferReceiverProof, ho, hrd, hpf, hce, hcd]
            rfl
          rw [htp]

/-- Witness for C5 at a concrete package with no outputs. -/
theorem transferReceiverProof_confirm_after_delivery_witness :
    ∃ suffixTrace, (transferReceiverProof envBase pkgWaitConf).trace =
      (runDeliveries envBase pkgWaitConf.finalProofs
        parcelEmpty.outputs).1 ++ suffixTrace :=
  (transferReceiverProof_confirm_after_delivery envBase pkgWaitConf
    parcelEmpty rfl).2 rfl

/-- Error shape of the commitment-select step: no side effects, package
unchanged. -/
theorem stepCommitmentSelect_err {env : Env} {pkg : sendPackage}
    {tr : List Act} {e : PErr} {pkgE : sendPackage}
    (h : stepCommitmentSelect env pkg = ⟨tr, .err e pkgE⟩) :
    pkgE = pkg ∧ tr = [] := by
  unfold stepCommitmentSelect at h
  split at h <;> try split at h
  all_goals simp_all

/-- Error shape of the virtual-sign step: no side effects, package
unchanged. -/
theorem stepVirtualSign_err {env : Env} {pkg : sendPackage}
    {tr : List Act} {e : PErr} {pkgE : sendPackage}
    (h : stepVirtualSign env pkg = ⟨tr, .err e pkgE⟩) :
    pkgE = pkg ∧ tr = [] := by
  unfold stepVirtualSign at h
  split at h <;> try split at h
  all_goals simp_all

/-- Error shape of the anchor-sign step: when no UTXOs were locked on
entry, every UTXO locked at the error point is unlocked in the trace
(the only error branch with a funded anchor transaction is the
validation failure, which unlocks). -/
theorem stepAnchorSign_err_unlock {env : Env} {pkg : sendPackage}
    {tr : List Act} {e : PErr} {pkgE : sendPackage}
    (hanchor : pkg.anchorTx = none)
    (h : stepAnchorSign env pkg = ⟨tr, .err e pkgE⟩) :
    ∀ op ∈ lockedOutPoints pkgE, Act.unlockInput op ∈ tr := by
  simp only [stepAnchorSign] at h
  split at h
  · obtain ⟨h1, h2, h3⟩ := by simpa using h
    subst h1; subst h3
    simp [lockedOutPoints, hanchor]
  · split at h
    · obtain ⟨h1, h2, h3⟩ := by simpa using h
      subst h1; subst h3
      simp [lockedOutPoints, hanchor]
    · split at h
      · obtain ⟨h1, h2, h3⟩ := by simpa using h
        subst h1; subst h3
        simp [lockedOutPoints, hanchor]
      · split at h
        · obtain ⟨h1, h2, h3⟩ := by simpa using h
          subst h1; subst h3
          simp [lockedOutPoints, hanchor]
        · split at h
          · obtain ⟨h1, h2, h3⟩ := by simpa using h
            subst h1; subst h3
            intro op hop
            exact List.mem_map_of_mem Act.unlockInput hop
          · simp_all

/-- Error shape of the pre-broadcast store step: every UTXO locked at
the error point is unlocked in the trace. -/
theorem stepStorePreBroadcast_err_unlock {env : Env} {pkg : sendPackage}
    {tr : List Act} {e : PErr} {pkgE : sendPackage}
    (h : stepStorePreBroadcast env pkg = ⟨tr, .err e pkgE⟩) :
    ∀ op ∈ lockedOutPoints pkgE, Act.unlockInput op ∈ tr := by
  unfold stepStorePreBroadcast at h
  split at h
  · obtain ⟨h1, h2, h3⟩ := by simpa using h
    subst h1; subst h3
    intro op hop
    exact List.mem_map_of_mem Act.unlockInput hop
  · split at h
    · obtain ⟨h1, h2, h3⟩ := by simpa using h
      subst h1; subst h3
      intro op hop
      exact List.mem_map_of_mem Act.unlockInput hop
    · split at h
      · obtain ⟨h1, h2, h3⟩ := by simpa using h
        subst h1; subst h3
        intro op hop
        exact List.mem_cons_of_mem _
          (List.mem_map_of_mem Act.unlockInput hop)
      · simp_all

/-- Error shape of the broadcast step: excluding the double-spend and
local-address-import failures, no error branch unlocks anything. -/
theorem stepBroadcast_err_no_unlock {env : Env} {pkg : sendPackage}
    {tr : List Act} {e : PErr} {pkgE : sendPackage}
    (h : stepBroadcast env pkg = ⟨tr, .err e pkgE⟩)
    (hds : e ≠ .doubleSpend) (him : e ≠ .importLocalAddressesFailed) :
    ∀ op, Act.unlockInput op ∉ tr := by
  unfold stepBroadcast at h
  split at h
  · simp_all
  · split at h
    · obtain ⟨h1, h2, h3⟩ := by simpa using h
      exact absurd h2.symm him
    · simp_all
    · split at h
      · obtain ⟨h1, h2, h3⟩ := by simpa using h
        exact absurd h2.symm hds
      · obtain ⟨h1, h2, h3⟩ := by simpa using h
        subst h1
        intro op
        simp
      · simp_all

/-- Error shape of the confirmation wait: its trace is always empty. -/
theorem waitForTransferTxConf_err {env : Env} {pkg : sendPackage}
    {tr : List Act} {e : PErr} {pkgE : sendPackage}
    (h : waitForTransferTxConf env pkg = ⟨tr, .err e pkgE⟩) :
    tr = [] := by
  unfold waitForTransferTxConf at h
  split at h
  · simp_all
  · split at h
    · simp_all
    · split at h <;> simp_all

/-- The active-proof loop of `storeProofs` touches only the proof
archive and the watcher: it never unlocks a UTXO. -/
theorem storeActiveProofs_no_unlock (env : Env)
    (confEvent : Option ConfData) (inputs : List PrevID) :
    ∀ (outs : List TransferOutput) (fp : List (PubKey × AnnotatedProof))
      (op : OutPoint),
      Act.unlockInput op ∉ (storeActiveProofs env confEvent inputs fp outs).1 := by
  intro outs
  induction outs with
  | nil => intro fp op; simp [storeActiveProofs]
  | cons out rest ih =>
    intro fp op
    unfold storeActiveProofs
    split
    · simp
    · split
      · simp
      · simp
      · split
        · simp
        · split
          · simp
          · split
            · simp
            · intro hmem
              rcases List.mem_cons.mp hmem with h | h
              · exact absurd h (by simp)
              · rcases List.mem_append.mp h with h' | h'
                · split at h' <;> simp_all
                · exact ih _ op h'

/-- Error shape of `storeProofs`: its trace holds only archive imports
and watcher registrations, never an unlock. -/
theorem storeProofs_err_no_unlock {env : Env} {pkg : sendPackage}
    {tr : List Act} {e : PErr} {pkgE : sendPackage}
    (h : storeProofs env pkg = ⟨tr, .err e pkgE⟩) :
    ∀ op, Act.unlockInput op ∉ tr := by
  unfold storeProofs at h
  repeat' split at h
  all_goals first
    | (simp_all; done)
    | (obtain ⟨h1, h2, h3⟩ := by simpa using h
       subst h1
       intro op
       have hno := storeActiveProofs_no_unlock env pkg.transferTxConfEvent
       simp_all)
    | skip
  all_goals (replace h := h.symm; dsimp only at h; split at h)
  all_goals first
    | (simp_all; done)
    | (obtain ⟨h1, h2, h3⟩ := by simpa using h
       subst h1
       intro op
       have hno := storeActiveProofs_no_unlock env pkg.transferTxConfEvent
       simp_all)

/-- Success shape of the commitment-select step. -/
theorem stepCommitmentSelect_ok {env : Env} {pkg : sendPackage}
    {tr : List Act} {pkg' : sendPackage}
    (h : stepCommitmentSelect env pkg = ⟨tr, .ok pkg'⟩) :
    pkg'.sendState = .VirtualSign := by
  unfold stepCommitmentSelect at h
  repeat' split at h
  all_goals first
    | (simp_all; done)
    | (obtain ⟨h1, h2⟩ := by simpa using h
       subst h2; rfl)

/-- Success shape of the virtual-sign step. -/
theorem stepVirtualSign_ok {env : Env} {pkg : sendPackage}
    {tr : List Act} {pkg' : sendPackage}
    (h : stepVirtualSign env pkg = ⟨tr, .ok pkg'⟩) :
    pkg'.sendState = .AnchorSign := by
  unfold stepVirtualSign at h
  repeat' split at h
  all_goals first
    | (simp_all; done)
    | (obtain ⟨h1, h2⟩ := by simpa using h
       subst h2; rfl)

/-- Success shape of the anchor-sign step. -/
theorem stepAnchorSign_ok {env : Env} {pkg : sendPackage}
    {tr : List Act} {pkg' : sendPackage}
    (h : stepAnchorSign env pkg = ⟨tr, .ok pkg'⟩) :
    pkg'.sendState = .StorePreBroadcast := by
  simp only [stepAnchorSign] at h
  repeat' split at h
  all_goals first
    | (simp_all; done)
    | (obtain ⟨h1, h2⟩ := by simpa using h
       subst h2; rfl)

/-- Success shape of the pre-broadcast store step. -/
theorem stepStorePreBroadcast_ok {env : Env} {pkg : sendPackage}
    {tr : List Act} {pkg' : sendPackage}
    (h : stepStorePreBroadcast env pkg = ⟨tr, .ok pkg'⟩) :
    pkg'.sendState = .Broadcast := by
  unfold stepStorePreBroadcast at h
  repeat' split at h
  all_goals first
    | (simp_all; done)
    | (obtain ⟨h1, h2⟩ := by simpa using h
       subst h2; rfl)

/-- Success shape of the broadcast step. -/
theorem stepBroadcast_ok {env : Env} {pkg : sendPackage}
    {tr : List Act} {pkg' : sendPackage}
    (h : stepBroadcast env pkg = ⟨tr, .ok pkg'⟩) :
    pkg'.sendState = .WaitTxConf := by
  unfold stepBroadcast at h
  repeat' split at h
  all_goals first
    | (simp_all; done)
    | (obtain ⟨h1, h2⟩ := by simpa using h
       subst h2; rfl)

/-- Success shape of the confirmation wait: either the state advanced
to `StoreProofs` on a confirmation, or the quit signal fired and the
package is untouched. -/
theorem waitForTransferTxConf_ok {env : Env} {pkg : sendPackage}
    {tr : List Act} {pkg' : sendPackage}
    (h : waitForTransferTxConf env pkg = ⟨tr, .ok pkg'⟩) :
    pkg'.sendState = .StoreProofs ∨
      (pkg' = pkg ∧ env.waitConf = .quitSignal) := by
  unfold waitForTransferTxConf at h
  split at h
  · simp_all
  · split at h
    · simp_all
    · split at h
      · left
        obtain ⟨h1, h2⟩ := by simpa using h
        subst h2; rfl
      · simp_all
      · simp_all
      · right
        obtain ⟨h1, h2⟩ := by simpa using h
        subst h2
        exact ⟨rfl, by assumption⟩

/-- Success shape of the proof-store step. -/
theorem storeProofs_ok {env : Env} {pkg : sendPackage}
    {tr : List Act} {pkg' : sendPackage}
    (h : storeProofs env pkg = ⟨tr, .ok pkg'⟩) :
    pkg'.sendState = .TransferProofs := by
  unfold storeProofs at h
  repeat' split at h
  all_goals first
    | (simp_all; done)
    | (obtain ⟨h1, h2⟩ := by simpa using h
       subst h2; rfl)
    | skip
  all_goals (replace h := h.symm; dsimp only at h; split at h)
  all_goals first
    | (simp_all; done)
    | (obtain ⟨h1, h2⟩ := by simpa using h
       subst h2; rfl)

/-- Success shape of the transfer-proofs step. -/
theorem stepTransferProofs_ok {env : Env} {pkg : sendPackage}
    {tr : List Act} {pkg' : sendPackage}
    (h : stepTransferProofs env pkg = ⟨tr, .ok pkg'⟩) :
    pkg'.sendState = .Complete := by
  unfold stepTransferProofs at h
  obtain ⟨h1, h2⟩ := by simpa using h
  subst h2; rfl

/-- Progress: a successful `stateStep` strictly advances the state,
except for the quit interruption of the confirmation wait, which leaves
the package untouched. -/
theorem stateStep_ok_progress {env : Env} {pkg pkg' : sendPackage}
    (h : (stateStep env pkg).result = .ok pkg') :
    pkg.sendState < pkg'.sendState ∨
      (pkg' = pkg ∧ pkg.sendState = .WaitTxConf ∧
        env.waitConf = .quitSignal) := by
  rcases hq : stateStep env pkg with ⟨tr, res⟩
  rw [hq] at h
  dsimp only at h
  subst h
  cases hs : pkg.sendState
  case VirtualCommitmentSelect =>
    simp only [stateStep, hs] at hq
    left; rw [stepCommitmentSelect_ok hq]; decide
  case VirtualSign =>
    simp only [stateStep, hs] at hq
    left; rw [stepVirtualSign_ok hq]; decide
  case AnchorSign =>
    simp only [stateStep, hs] at hq
    left; rw [stepAnchorSign_ok hq]; decide
  case StorePreBroadcast =>
    simp only [stateStep, hs] at hq
    left; rw [stepStorePreBroadcast_ok hq]; decide
  case Broadcast =>
    simp only [stateStep, hs] at hq
    left; rw [stepBroadcast_ok hq]; decide
  case WaitTxConf =>
    simp only [stateStep, hs] at hq
    rcases waitForTransferTxConf_ok hq with h1 | ⟨h1, h2⟩
    · left; rw [h1]; decide
    · exact Or.inr ⟨h1, rfl, h2⟩
  case StoreProofs =>
    simp only [stateStep, hs] at hq
    left; rw [storeProofs_ok hq]; decide
  case TransferProofs =>
    simp only [stateStep, hs] at hq
    left; rw [stepTransferProofs_ok hq]; decide
  case Complete =>
    simp only [stateStep, hs] at hq
    simp at hq

/-- An environment whose quit signal is set. -/
def envQuit : Env := { envBase with quit := true }

/-- An environment in which registering the confirmation notification
fails. -/
def envRegFail : Env := { envBase with registerConfOk := false }

/-- A quit iteration stops the loop before executing any state. -/
theorem advanceStates_quit {env : Env} {envs : List Env}
    {pkg : sendPackage} (hq : env.quit = true) :
    advanceStates (env :: envs) pkg = [] := by
  unfold advanceStates
  split <;> simp [hq]

/-- The visited-state list is empty or starts with the current state. -/
theorem advanceStates_head (envs : List Env) (pkg : sendPackage) :
    advanceStates envs pkg = [] ∨
      ∃ l, advanceStates envs pkg = pkg.sendState :: l := by
  cases envs with
  | nil => exact .inl rfl
  | cons env envs =>
    unfold advanceStates
    split
    · split
      · exact .inl rfl
      · cases hr : (stateStep env pkg).result with
        | ok pkg2 => exact .inr ⟨advanceStates envs pkg2, rfl⟩
        | err e p2 => exact .inr ⟨[], rfl⟩
        | crash => exact .inr ⟨[], rfl⟩
    · exact .inl rfl

/-- `quitMono` restricts to the tail of the environment list. -/
theorem quitMono_tail {env : Env} {envs : List Env}
    (h : quitMono (env :: envs) = true) : quitMono envs = true := by
  cases envs with
  | nil => rfl
  | cons e2 rest =>
    unfold quitMono at h
    rw [Bool.and_eq_true] at h
    exact h.2

/-- After a quit during the confirmation wait, the next iteration sees
the quit signal. -/
theorem quitMono_head {env1 env2 : Env} {rest : List Env}
    (h : quitMono (env1 :: env2 :: rest) = true)
    (hw : env1.waitConf = .quitSignal) : env2.quit = true := by
  unfold quitMono at h
  rw [Bool.and_eq_true] at h
  have h1 := h.1
  rw [hw] at h1
  simpa using h1

/-- The executed-state list of a run is strictly increasing: no state
is re-entered and the state never decreases. -/
theorem advanceStates_strictIncreasing :
    ∀ (envs : List Env) (pkg : sendPackage),
      quitMono envs = true →
      StrictlyIncreasing (advanceStates envs pkg) := by
  intro envs
  induction envs with
  | nil => intro pkg _; exact trivial
  | cons env envs ih =>
    intro pkg hq
    by_cases hlt : pkg.sendState < SendState.Complete
    case neg =>
      unfold advanceStates
      rw [if_neg hlt]
      exact trivial
    by_cases hquit : env.quit = true
    · unfold advanceStates
      rw [if_pos hlt, if_pos hquit]
      exact trivial
    · unfold advanceStates
      rw [if_pos hlt, if_neg hquit]
      cases hr : (stateStep env pkg).result with
      | err e p2 => exact trivial
      | crash => exact trivial
      | ok pkg2 =>
        show StrictlyIncreasing (pkg.sendState :: advanceStates envs pkg2)
        have hrest := ih pkg2 (quitMono_tail hq)
        rcases advanceStates_head envs pkg2 with hnil | ⟨l, hl⟩
        · rw [hnil]; exact trivial
        · rw [hl]
          rw [hl] at hrest
          refine ⟨?_, hrest⟩
          rcases stateStep_ok_progress hr with hlt2 | ⟨hpe, hws, hwq⟩
          · exact hlt2
          · exfalso
            cases envs with
            | nil => simp [advanceStates] at hl
            | cons e2 rest2 =>
              have h2 : e2.quit = true := quitMono_head hq hwq
              rw [advanceStates_quit h2] at hl
              exact absurd hl (by simp)

/-- C4: a `stateStep` that returns without error never decreases the
package's `SendState`, and within a single run (with the quit signal
latched once set) the executed-state sequence is strictly increasing,
so no completed state is ever re-entered. -/
theorem stateStep_monotone_no_reentry :
    (∀ (env : Env) (pkg pkg' : sendPackage),
      (stateStep env pkg).result = .ok pkg' →
      pkg.sendState ≤ pkg'.sendState) ∧
    (∀ (envs : List Env) (pkg : sendPackage),
      quitMono envs = true →
      StrictlyIncreasing (advanceStates envs pkg)) := by
  constructor
  · intro env pkg pkg' h
    rcases stateStep_ok_progress h with hlt | ⟨hpe, _, _⟩
    · exact Nat.le_of_lt hlt
    · rw [hpe]
      exact Nat.le_refl _
  · exact advanceStates_strictIncreasing

/-- Witness for C4: a concrete no-error step and a concrete run. -/
theorem stateStep_monotone_no_reentry_witness :
    pkgWaitConf.sendState ≤ pkgWaitConf.sendState ∧
    StrictlyIncreasing (advanceStates [envBase] pkgBase) :=
  ⟨stateStep_monotone_no_reentry.1 envBase pkgWaitConf pkgWaitConf rfl,
    stateStep_monotone_no_reentry.2 [envBase] pkgBase rfl⟩

/-- C1 (amended): an error in a state up to and including
`StorePreBroadcast` unlocks every UTXO locked at the error point, while
an error in any state after the `StorePreBroadcast` checkpoint — other
than the terminal double-spend and the local-address-import failure in
`Broadcast` — never calls `UnlockInput` on any UTXO. -/
theorem unlock_discipline_checkpoint :
    (∀ (env : Env) (pkg : sendPackage) (tr : List Act) (e : PErr)
      (pkgE : sendPackage),
      pkg.sendState ≤ SendState.StorePreBroadcast →
      (pkg.sendState ≠ .StorePreBroadcast → pkg.anchorTx = none) →
      stateStep env pkg = ⟨tr, .err e pkgE⟩ →
      ∀ op ∈ lockedOutPoints pkgE, Act.unlockInput op ∈ tr) ∧
    (∀ (env : Env) (pkg : sendPackage) (tr : List Act) (e : PErr)
      (pkgE : sendPackage),
      SendState.Broadcast ≤ pkg.sendState →
      stateStep env pkg = ⟨tr, .err e pkgE⟩ →
      e ≠ .doubleSpend → e ≠ .importLocalAddressesFailed →
      ∀ op, Act.unlockInput op ∉ tr) := by
  constructor
  · intro env pkg tr e pkgE hle hanchor hstep
    cases hs : pkg.sendState
    case VirtualCommitmentSelect =>
      simp only [stateStep, hs] at hstep
      obtain ⟨hpe, htr⟩ := stepCommitmentSelect_err hstep
      subst htr
      have ha : pkg.anchorTx = none := hanchor (by rw [hs]; decide)
      simp [hpe, lockedOutPoints, ha]
    case VirtualSign =>
      simp only [stateStep, hs] at hstep
      obtain ⟨hpe, htr⟩ := stepVirtualSign_err hstep
      subst htr
      have ha : pkg.anchorTx = none := hanchor (by rw [hs]; decide)
      simp [hpe, lockedOutPoints, ha]
    case AnchorSign =>
      simp only [stateStep, hs] at hstep
      exact stepAnchorSign_err_unlock (hanchor (by rw [hs]; decide)) hstep
    case StorePreBroadcast =>
      simp only [stateStep, hs] at hstep
      exact stepStorePreBroadcast_err_unlock hstep
    all_goals (rw [hs] at hle; exact absurd hle (by decide))
  · intro env pkg tr e pkgE hge hstep hds him
    cases hs : pkg.sendState
    case Broadcast =>
      simp only [stateStep, hs] at hstep
      exact stepBroadcast_err_no_unlock hstep hds him
    case WaitTxConf =>
      simp only [stateStep, hs] at hstep
      rw [waitForTransferTxConf_err hstep]
      intro op
      simp
    case StoreProofs =>
      simp only [stateStep, hs] at hstep
      exact storeProofs_err_no_unlock hstep
    case TransferProofs =>
      simp only [stateStep, hs, stepTransferProofs] at hstep
      simp at hstep
    case Complete =>
      simp only [stateStep, hs] at hstep
      obtain ⟨h1, h2, h3⟩ := by simpa using hstep
      subst h1
      intro op
      simp
    all_goals (rw [hs] at hge; exact absurd hge (by decide))

/-- Counterexample to C1 as stated: at `Broadcast` — a state after the
`StorePreBroadcast` checkpoint — a failure of the local-address import
(a non-double-spend error) does unlock the locked UTXO
(`chain_porter.go` lines 1106-1112). -/
theorem unlock_discipline_checkpoint_counterexample :
    pkgBroadcastLocal.sendState = .Broadcast ∧
    stateStep envImportFail pkgBroadcastLocal =
      ⟨[Act.unlockInput op0],
        .err .importLocalAddressesFailed pkgBroadcastLocal⟩ ∧
    PErr.importLocalAddressesFailed ≠ PErr.doubleSpend := by
  refine ⟨rfl, rfl, by decide⟩

/-- Witness for the amended C1: a pre-checkpoint error unlocks the
locked UTXO; a post-checkpoint notifier-registration error unlocks
nothing. -/
theorem unlock_discipline_checkpoint_witness :
    Act.unlockInput op0 ∈ unlockInputs pkgStorePre ∧
    Act.unlockInput op0 ∉ ([] : List Act) :=
  ⟨unlock_discipline_checkpoint.1 envBase pkgStorePre
      (unlockInputs pkgStorePre) .convertToTransferFailed pkgStorePre
      (by decide) (fun hcontra => absurd rfl hcontra) rfl op0 (by decide),
    unlock_discipline_checkpoint.2 envRegFail pkgWaitConf []
      .registerConfFailed pkgWaitConf (by decide) rfl (by decide)
      (by decide) op0⟩
